import Mathlib

/-!
Verification of the authentication core of the chanfana-openapi-template
blog backend (`src/utils/jwt.ts`, `src/routes/auth.ts`,
`src/routes/articles.ts`, `src/middleware/auth.ts`).

Modelling conventions:
* JavaScript strings that the code manipulates character by character
  (tokens, headers, base64 text) are embedded as `List Char` (`Str`);
  record-like data (user ids, emails, roles) stays `String`.
* Byte sequences are `List Nat` with every element `< 256`.
* Thrown JavaScript errors are `Except` values: `ApiError` objects keep
  their message and status code; a `JSON.parse`/`atob` failure (a
  `SyntaxError`, not an `ApiError`) is the separate `Thrown.jsonError`.
* The Web-platform primitives HMAC-SHA256 (`crypto.subtle`),
  `JSON.stringify`/`JSON.parse` of the payload object and the constant
  base64url-encoded header are abstracted as a `Prim` bundle; every
  theorem that needs them assumes only `Prim.Good` (JSON round-trips and
  none of the opaque outputs contains the separator `'.'`).  A concrete
  executable instance (`toyPrim`) witnesses satisfiability.
* Wall-clock reads (`Date.now()`) are passed explicitly: `now` is epoch
  seconds where the source computes `Math.floor(Date.now() / 1000)`,
  `nowMs` is epoch milliseconds where the source uses `Date.now()` raw.
* The mutable `Map` fields and the module-level singleton are embedded by
  explicit state passing (association lists with unique keys / an
  `Option TokenManager` threaded through `getTokenManager`).
-/

/-- JavaScript strings handled character-wise are `List Char`. -/
abbrev Str := List Char

/-- Models `token.split('.')` of `String.prototype.split` with a one-character
separator: `""` yields `[""]`, and `n` separators yield `n + 1` fields. -/
def splitOnDot : Str → List Str
  | [] => [[]]
  | c :: rest =>
    if c = '.' then [] :: splitOnDot rest
    else
      match splitOnDot rest with
      | [] => [[c]]
      | h :: t => (c :: h) :: t

/-- The 64-character standard base64 alphabet used by `btoa`/`atob`. -/
def b64chars : List Char :=
  ['A', 'B', 'C', 'D', 'E', 'F', 'G', 'H', 'I', 'J', 'K', 'L', 'M',
   'N', 'O', 'P', 'Q', 'R', 'S', 'T', 'U', 'V', 'W', 'X', 'Y', 'Z',
   'a', 'b', 'c', 'd', 'e', 'f', 'g', 'h', 'i', 'j', 'k', 'l', 'm',
   'n', 'o', 'p', 'q', 'r', 's', 't', 'u', 'v', 'w', 'x', 'y', 'z',
   '0', '1', '2', '3', '4', '5', '6', '7', '8', '9', '+', '/']

/-- Character of a six-bit group (only ever applied below 64). -/
def sextetToChar (s : Nat) : Char := b64chars.getD s 'A'

/-- Index of a character in the base64 alphabet, `none` when absent. -/
def charIndex (c : Char) : List Char → Option Nat
  | [] => none
  | d :: ds => if d = c then some 0 else (charIndex c ds).map (· + 1)

/-- Inverse of `sextetToChar` on the alphabet. -/
def charToSextet (c : Char) : Option Nat := charIndex c b64chars

/-- The platform `btoa` on a byte sequence (after `String.fromCharCode`):
standard base64 with `=` padding, three input bytes per four output
characters.  `>>`/`&`/`<<` of the usual bit mixing are written with
`/`, `%` and `*` on `Nat`. -/
def btoa : List Nat → Str
  | [] => []
  | [b0] =>
    [sextetToChar (b0 / 4), sextetToChar (b0 % 4 * 16), '=', '=']
  | [b0, b1] =>
    [sextetToChar (b0 / 4), sextetToChar (b0 % 4 * 16 + b1 / 16),
     sextetToChar (b1 % 16 * 4), '=']
  | b0 :: b1 :: b2 :: rest =>
    sextetToChar (b0 / 4) :: sextetToChar (b0 % 4 * 16 + b1 / 16) ::
    sextetToChar (b1 % 16 * 4 + b2 / 64) :: sextetToChar (b2 % 64) ::
    btoa rest

/-- The platform `atob`, producing the byte sequence (`charCodeAt` view):
consumes four characters at a time, honouring `=` padding at the end and
failing (`InvalidCharacterError`, modelled as `none`) otherwise. -/
def atob : Str → Option (List Nat)
  | [] => some []
  | c0 :: c1 :: c2 :: c3 :: rest =>
    match charToSextet c0, charToSextet c1 with
    | some s0, some s1 =>
      if c2 = '=' then
        if c3 = '=' ∧ rest = [] then some [s0 * 4 + s1 / 16] else none
      else
        match charToSextet c2 with
        | some s2 =>
          if c3 = '=' then
            if rest = [] then
              some [s0 * 4 + s1 / 16, s1 % 16 * 16 + s2 / 4]
            else none
          else
            match charToSextet c3 with
            | some s3 =>
              (atob rest).map (fun bs =>
                (s0 * 4 + s1 / 16) :: (s1 % 16 * 16 + s2 / 4) ::
                (s2 % 4 * 64 + s3) :: bs)
            | none => none
        | none => none
    | _, _ => none
  | _ => none

/-- Models `base64.replace(/\+/g, '-').replace(/\//g, '_')`, per character. -/
def substEnc (c : Char) : Char :=
  if c = '+' then '-' else if c = '/' then '_' else c

/-- The decode-side character substitution of the source (the two global
regex replaces sending dash to plus and underscore to slash), per
character. -/
def substDec (c : Char) : Char :=
  if c = '-' then '+' else if c = '_' then '/' else c

/-- Models `JWT.base64UrlEncode` of `src/utils/jwt.ts` at the byte level (the
`TextEncoder` step that produced the bytes is the caller's): `btoa`, then
`+`→`-`, `/`→`_`, then `.replace(/=/g, '')` which removes the `=`s. -/
def base64UrlEncode (bytes : List Nat) : Str :=
  ((btoa bytes).map substEnc).filter (fun c => c ≠ '=')

/-- Models `JWT.base64UrlDecode` of `src/utils/jwt.ts` at the byte level (the
final `TextDecoder` step is the caller's): append `'='.repeat((4 - str.length % 4) % 4)`,
substitute `-`→`+` and `_`→`/`, then `atob`. -/
def base64UrlDecode (s : Str) : Option (List Nat) :=
  atob ((s ++ List.replicate ((4 - s.length % 4) % 4) '=').map substDec)

/-- The `type` discriminator of `JWTPayload` (`'access' | 'refresh'`). -/
inductive TokenType where
  | access
  | refresh
deriving DecidableEq

/-- The `JWTPayload` interface of `src/types.ts`: identity claims plus
timing (`iat`/`exp`, epoch seconds) and the optional `type`/`jti`. -/
structure JWTPayload where
  userId : String
  email : String
  role : String
  iat : Int
  exp : Int
  type : Option TokenType := none
  jti : Option String := none
deriving DecidableEq

/-- The `ApiError` class of `src/types.ts` (message and HTTP status). -/
structure ApiError where
  message : String
  statusCode : Nat
deriving DecidableEq

/-- A thrown JavaScript error: either an `ApiError`, or the `SyntaxError`
raised by `JSON.parse` (and `atob`) on an undecodable payload — the
spec's `MalformedPayload` category, which is not an `ApiError`. -/
inductive Thrown where
  | api (e : ApiError)
  | jsonError
deriving DecidableEq

/-- The identity claims a caller provides when signing, i.e. the
`Omit<JWTPayload, 'iat' | 'exp' | 'type' | 'jti'>` argument shape. -/
structure UserClaims where
  userId : String
  email : String
  role : String
deriving DecidableEq

/-- The fields of the `User` interface of `src/types.ts` that
`JWT.generateUserToken` reads (`id`, `email`, `role`). -/
structure User where
  id : String
  email : String
  role : String
deriving DecidableEq

/-- The Web-platform primitives the token engine composes, abstracted:
`mac secret data` is the base64url-encoded HMAC-SHA256 computed by
`JWT.sign256`; `serialize` is `base64UrlEncode(JSON.stringify payload)`;
`parse` is `JSON.parse(base64UrlDecode segment)` (`none` models the
thrown `SyntaxError`); `headerB64` is the constant
`base64UrlEncode(JSON.stringify {alg: 'HS256', typ: 'JWT'})`. -/
structure Prim where
  mac : String → Str → Str
  serialize : JWTPayload → Str
  parse : Str → Option JWTPayload
  headerB64 : Str

/-- Faithfulness assumptions on the abstracted platform primitives:
serialization round-trips through parsing, and none of the produced
segments contains the separator `'.'` (base64url output never does). -/
def Prim.Good (P : Prim) : Prop :=
  (∀ p, P.parse (P.serialize p) = some p) ∧
  (∀ p, '.' ∉ P.serialize p) ∧
  (∀ s d, '.' ∉ P.mac s d) ∧
  '.' ∉ P.headerB64

/-- The `JWT` class of `src/utils/jwt.ts`: it holds only the secret. -/
structure JWT where
  secret : String
deriving DecidableEq

/-- Models `JWT.sign`: builds the full payload by adding `iat = now` and
`exp = now + expiresIn` to the caller's claims (the caller's spread may
already have put `type`/`jti` there — passed explicitly here), encodes
header and payload, signs `header + '.' + payload` and appends the
signature as the third segment. -/
def JWT.sign (j : JWT) (P : Prim) (base : UserClaims) (ty : Option TokenType)
    (jti : Option String) (expiresIn : Int) (now : Int) : Str :=
  let fullPayload : JWTPayload :=
    ⟨base.userId, base.email, base.role, now, now + expiresIn, ty, jti⟩
  let encodedHeader := P.headerB64
  let encodedPayload := P.serialize fullPayload
  let signature := P.mac j.secret (encodedHeader ++ '.' :: encodedPayload)
  encodedHeader ++ '.' :: encodedPayload ++ '.' :: signature

/-- Models `JWT.signAccessToken`: `sign({...payload, type: 'access'}, expiresIn)`
(source default `expiresIn = 15 * 60`). -/
def JWT.signAccessToken (j : JWT) (P : Prim) (base : UserClaims)
    (expiresIn : Int) (now : Int) : Str :=
  j.sign P base (some .access) none expiresIn now

/-- Models `JWT.signRefreshToken`: `sign({...payload, type: 'refresh', jti},
expiresIn)` with a fresh `jti = crypto.randomUUID()` (the random UUID is
passed explicitly; source default `expiresIn = 7 * 24 * 60 * 60`). -/
def JWT.signRefreshToken (j : JWT) (P : Prim) (base : UserClaims)
    (jti : String) (expiresIn : Int) (now : Int) : Str :=
  j.sign P base (some .refresh) (some jti) expiresIn now

/-- Models `JWT.verify`: split on `'.'` and demand exactly three parts, else
`ApiError('Invalid token format', 401)`; recompute the signature over
`header + '.' + payload` and compare with the third part, else
`ApiError('Invalid token signature', 401)`; decode/parse the payload
(`JSON.parse` throws on failure); finally reject `exp < now` with
`ApiError('Token has expired', 401)`, and return the payload. -/
def JWT.verify (j : JWT) (P : Prim) (token : Str) (now : Int) :
    Except Thrown JWTPayload :=
  match splitOnDot token with
  | [encodedHeader, encodedPayload, signature] =>
    let expectedSignature := P.mac j.secret (encodedHeader ++ '.' :: encodedPayload)
    if signature ≠ expectedSignature then
      .error (.api ⟨"Invalid token signature", 401⟩)
    else
      match P.parse encodedPayload with
      | none => .error .jsonError
      | some payload =>
        if payload.exp < now then .error (.api ⟨"Token has expired", 401⟩)
        else .ok payload
  | _ => .error (.api ⟨"Invalid token format", 401⟩)

/-- Models `JWT.verifyAccessToken`: `verify`, then reject
`payload.type !== 'access'` with `ApiError('Invalid access token', 401)`. -/
def JWT.verifyAccessToken (j : JWT) (P : Prim) (token : Str) (now : Int) :
    Except Thrown JWTPayload :=
  match j.verify P token now with
  | .error e => .error e
  | .ok payload =>
    if payload.type ≠ some .access then
      .error (.api ⟨"Invalid access token", 401⟩)
    else .ok payload

/-- Models `JWT.verifyRefreshToken`: `verify`, then reject
`payload.type !== 'refresh'` with `ApiError('Invalid refresh token', 401)`. -/
def JWT.verifyRefreshToken (j : JWT) (P : Prim) (token : Str) (now : Int) :
    Except Thrown JWTPayload :=
  match j.verify P token now with
  | .error e => .error e
  | .ok payload =>
    if payload.type ≠ some .refresh then
      .error (.api ⟨"Invalid refresh token", 401⟩)
    else .ok payload

/-- Models `JWT.generateUserToken`: `sign({userId: user.id, email: user.email,
role: user.role})` with the default 7-day `expiresIn` and no `type`/`jti`. -/
def JWT.generateUserToken (j : JWT) (P : Prim) (user : User) (now : Int) : Str :=
  j.sign P ⟨user.id, user.email, user.role⟩ none none (7 * 24 * 60 * 60) now

/-- Member names present on `Object.prototype` and therefore inherited by
the object literal `roleHierarchy` through the prototype chain: a JS
bracket lookup `roleHierarchy[r]` consults the whole chain before
yielding `undefined`, so these names yield non-nullish values even
though they are not own keys of the literal. -/
def objectPrototypeMemberNames : List String :=
  ["constructor", "hasOwnProperty", "isPrototypeOf", "propertyIsEnumerable",
   "toLocaleString", "toString", "valueOf", "__defineGetter__",
   "__defineSetter__", "__lookupGetter__", "__lookupSetter__", "__proto__"]

/-- Result of the JS bracket lookup `roleHierarchy[r]` in
`src/utils/jwt.ts`: an own numeric rank, an inherited `Object.prototype`
member (identified by its property name), or `undefined`.  (The
TypeScript `as keyof typeof roleHierarchy` assertion has no runtime
effect.) -/
inductive JsProp where
  | num (n : Int)
  | inherited (name : String)
  | undefinedVal
deriving DecidableEq

/-- The role table of `hasPermission` in `src/utils/jwt.ts`, looked up
with JS bracket-lookup semantics: the three own keys yield their ranks,
names of inherited `Object.prototype` members yield the inherited
member, and every other name yields `undefined`. -/
def roleHierarchy (r : String) : JsProp :=
  if r = "user" then .num 0
  else if r = "collaborator" then .num 1
  else if r = "admin" then .num 2
  else if r ∈ objectPrototypeMemberNames then .inherited r
  else .undefinedVal

/-- Models `v ?? d` (nullish coalescing): replaces only `undefined`
(`null` cannot occur here), so an inherited member is kept as-is. -/
def nullishCoalesce (v : JsProp) (d : Int) : JsProp :=
  match v with
  | .undefinedVal => .num d
  | v => v

/-- The primitive string `ToPrimitive` produces for an inherited member
during the relational comparison: `Object.prototype.valueOf` returns the
object itself, so `toString` decides.  The inherited methods print as
V8-style function sources (the `constructor` member is the function
named `Object`), and the `__proto__` accessor yields `Object.prototype`,
which prints as `'[object Object]'`.  Only the fact that the same
member always yields the same string matters for the failing input
below; the exact sources are engine conventions. -/
def memberString (name : String) : String :=
  if name = "__proto__" then "[object Object]"
  else if name = "constructor" then "function Object() \x7b [native code] \x7d"
  else "function " ++ name ++ "() \x7b [native code] \x7d"

/-- Code-unit-wise string less-than of ECMA-262 (all characters here are
ASCII, so code points suffice). -/
def jsStringLt : List Char → List Char → Bool
  | [], [] => false
  | [], _ :: _ => true
  | _ :: _, [] => false
  | a :: as, b :: bs =>
    if a.toNat < b.toNat then true
    else if b.toNat < a.toNat then false
    else jsStringLt as bs

/-- Models the JS relational comparison `a >= b` (`IsLessThan` negated,
`undefined` → `false`) on the values the lookups can produce: two
numbers compare numerically; two inherited members compare as their
primitive strings (so identical members satisfy `>=`); a number against
an inherited member applies `ToNumber` to the member's non-numeric
string, giving `NaN`, so the comparison is `false` either way round
(likewise every comparison involving `undefined`). -/
def jsGe : JsProp → JsProp → Bool
  | .num a, .num b => a ≥ b
  | .inherited a, .inherited b =>
    ! jsStringLt (memberString a).data (memberString b).data
  | _, _ => false

/-- Models `hasPermission(userRole, requiredRole)` of `src/utils/jwt.ts`
with JS lookup and comparison semantics:
`(roleHierarchy[userRole] ?? -1) >= (roleHierarchy[requiredRole] ?? 999)`. -/
def hasPermission (userRole requiredRole : String) : Bool :=
  jsGe (nullishCoalesce (roleHierarchy userRole) (-1))
    (nullishCoalesce (roleHierarchy requiredRole) 999)

/-- Prefix test on character lists (JS `String.prototype.startsWith`). -/
def strHasPre : Str → Str → Bool
  | _, [] => true
  | [], _ :: _ => false
  | c :: cs, p :: ps => c = p && strHasPre cs ps

/-- The characters of `'Bearer '` (scheme word plus one space). -/
def bearerSp : Str := ['B', 'e', 'a', 'r', 'e', 'r', ' ']

/-- Models `extractTokenFromHeader` of `src/utils/jwt.ts` as a function of the
`Authorization` header value (`none` = header absent): `null` unless the
header is truthy and `startsWith('Bearer ')`, else `slice(7)`.  (An empty
header string is falsy in JS; it also fails `startsWith`, so the single
`if` below covers both.) -/
def extractTokenFromHeader (authHeader : Option Str) : Option Str :=
  match authHeader with
  | none => none
  | some h => if strHasPre h bearerSp then some (h.drop 7) else none

/-- A value of the `refreshTokenStore` map: `{userId, expiresAt}` with
`expiresAt` in epoch milliseconds. -/
structure RefreshRecord where
  userId : String
  expiresAt : Int
deriving DecidableEq

/-- The `refreshTokenStore` JS `Map`, embedded as an association list in
insertion order with unique keys (a `Map` invariant). -/
abbrev RefreshStore := List (String × RefreshRecord)

/-- Models `Map.get`: value at the key, if present. -/
def storeGet (store : RefreshStore) (k : String) : Option RefreshRecord :=
  (store.find? (fun e => e.1 = k)).map Prod.snd

/-- Models `Map.has`. -/
def storeHas (store : RefreshStore) (k : String) : Bool :=
  store.any (fun e => e.1 = k)

/-- Models `Map.set`: replace in place when the key exists, else append. -/
def storeSet (store : RefreshStore) (k : String) (v : RefreshRecord) :
    RefreshStore :=
  if store.any (fun e => e.1 = k) then
    store.map (fun e => if e.1 = k then (k, v) else e)
  else store ++ [(k, v)]

/-- Models `Map.delete`: drop the entry with the key. -/
def storeDelete (store : RefreshStore) (k : String) : RefreshStore :=
  store.filter (fun e => e.1 ≠ k)

/-- The `TokenManager` class: a `JWT` built from the secret plus the
in-memory refresh-token registry. -/
structure TokenManager where
  jwt : JWT
  refreshTokenStore : RefreshStore
deriving DecidableEq

/-- Models `new TokenManager(secret)`: fresh `JWT` and an empty registry. -/
def TokenManager.create (secret : String) : TokenManager :=
  ⟨⟨secret⟩, []⟩

/-- The result object of `generateTokenPair`. -/
structure TokenPair where
  accessToken : Str
  refreshToken : Str
  expiresIn : Int
deriving DecidableEq

/-- The result object of `refreshAccessToken`. -/
structure RefreshResult where
  accessToken : Str
  expiresIn : Int
deriving DecidableEq

/-- Models `TokenManager.generateTokenPair`: sign a 15-minute access token and a
7-day refresh token, verify the freshly minted refresh token to read back
its `jti`/`exp`, and when the `jti` is present record
`{userId: user.userId, expiresAt: exp * 1000}` in the registry.  The
random UUID and the clock are explicit arguments. -/
def TokenManager.generateTokenPair (tm : TokenManager) (P : Prim)
    (user : UserClaims) (jti : String) (now : Int) :
    Except Thrown TokenPair × TokenManager :=
  let accessTokenExpiresIn : Int := 15 * 60
  let refreshTokenExpiresIn : Int := 7 * 24 * 60 * 60
  let accessToken := tm.jwt.signAccessToken P user accessTokenExpiresIn now
  let refreshToken := tm.jwt.signRefreshToken P user jti refreshTokenExpiresIn now
  match tm.jwt.verifyRefreshToken P refreshToken now with
  | .error e => (.error e, tm)
  | .ok refreshPayload =>
    let store :=
      match refreshPayload.jti with
      | some j => storeSet tm.refreshTokenStore j
          ⟨user.userId, refreshPayload.exp * 1000⟩
      | none => tm.refreshTokenStore
    (.ok ⟨accessToken, refreshToken, accessTokenExpiresIn⟩,
     {tm with refreshTokenStore := store})

/-- The `try` body of `TokenManager.refreshAccessToken`: verify the
refresh token (at `Math.floor(Date.now() / 1000)`), fail with
`ApiError('Invalid refresh token', 401)` when the `jti` claim is absent
or not a registry key, fail with `ApiError('Refresh token expired', 401)`
— after deleting the record — when `Date.now()` is past the stored
expiry, and otherwise mint a fresh 15-minute access token from the
refresh token's identity claims.  (`has` followed by `get(...)!` in the
source is one registry lookup here.) -/
def TokenManager.refreshAccessTokenTry (tm : TokenManager) (P : Prim)
    (refreshToken : Str) (nowMs : Int) :
    Except Thrown RefreshResult × TokenManager :=
  match tm.jwt.verifyRefreshToken P refreshToken (nowMs / 1000) with
  | .error e => (.error e, tm)
  | .ok refreshPayload =>
    match refreshPayload.jti with
    | none => (.error (.api ⟨"Invalid refresh token", 401⟩), tm)
    | some jti =>
      match storeGet tm.refreshTokenStore jti with
      | none => (.error (.api ⟨"Invalid refresh token", 401⟩), tm)
      | some storedToken =>
        if nowMs > storedToken.expiresAt then
          (.error (.api ⟨"Refresh token expired", 401⟩),
           {tm with refreshTokenStore := storeDelete tm.refreshTokenStore jti})
        else
          let accessTokenExpiresIn : Int := 15 * 60
          (.ok ⟨tm.jwt.signAccessToken P
              ⟨refreshPayload.userId, refreshPayload.email, refreshPayload.role⟩
              accessTokenExpiresIn (nowMs / 1000), accessTokenExpiresIn⟩, tm)

/-- Models `TokenManager.refreshAccessToken`: the `try` body above wrapped in the
source's `catch (error) { throw new ApiError('Invalid refresh token', 401) }`,
which replaces every thrown error — registry mutations already made are
kept. -/
def TokenManager.refreshAccessToken (tm : TokenManager) (P : Prim)
    (refreshToken : Str) (nowMs : Int) :
    Except Thrown RefreshResult × TokenManager :=
  match tm.refreshAccessTokenTry P refreshToken nowMs with
  | (.ok v, tm2) => (.ok v, tm2)
  | (.error _, tm2) => (.error (.api ⟨"Invalid refresh token", 401⟩), tm2)

/-- Models `TokenManager.revokeAllUserTokens(userId)`: iterate over all entries
and delete every one whose `userId` matches — i.e. keep exactly the
records owned by other users. -/
def TokenManager.revokeAllUserTokens (tm : TokenManager) (userId : String) :
    TokenManager :=
  {tm with refreshTokenStore :=
    tm.refreshTokenStore.filter (fun e => e.2.userId ≠ userId)}

/-- Models `getTokenManager(secret)` with the module-level singleton
`globalTokenManager` passed and returned explicitly: construct a manager
only when the global is still `null`, and always return the stored one. -/
def getTokenManager (secret : String)
    (globalTokenManager : Option TokenManager) :
    TokenManager × Option TokenManager :=
  match globalTokenManager with
  | none =>
    let tm := TokenManager.create secret
    (tm, some tm)
  | some tm => (tm, some tm)

/-- Little-endian binary digits of `n` as `'0'`/`'1'` characters, driven
by a structural fuel (`n` itself suffices). -/
def encNatAux : Nat → Nat → Str
  | 0, _ => []
  | fuel + 1, n =>
    if n = 0 then []
    else (if n % 2 = 1 then '1' else '0') :: encNatAux fuel (n / 2)

/-- A natural number as terminated binary digits: digits then `';'`. -/
def encNat (n : Nat) : Str := encNatAux n n ++ [';']

/-- Reads one terminated binary number, returning it with the leftover. -/
def decNat : Str → Option (Nat × Str)
  | [] => none
  | c :: rest =>
    if c = '0' then (decNat rest).map (fun p => (p.1 * 2, p.2))
    else if c = '1' then (decNat rest).map (fun p => (p.1 * 2 + 1, p.2))
    else if c = ';' then some (0, rest)
    else none

/-- An integer as a sign tag (`0`/`1`) followed by the magnitude. -/
def encInt (i : Int) : Str :=
  encNat (if i < 0 then 1 else 0) ++ encNat i.natAbs

/-- Reads one encoded integer. -/
def decInt (s : Str) : Option (Int × Str) :=
  (decNat s).bind (fun p =>
    (decNat p.2).map (fun q =>
      (if p.1 = 1 then -(q.1 : Int) else (q.1 : Int), q.2)))

/-- A string as its length followed by each character's code point. -/
def encString (s : String) : Str :=
  encNat s.length ++ (s.data.map (fun c => encNat c.toNat)).flatten

/-- Reads `k` terminated numbers. -/
def decNats : Nat → Str → Option (List Nat × Str)
  | 0, rest => some ([], rest)
  | k + 1, rest =>
    (decNat rest).bind (fun p =>
      (decNats k p.2).map (fun q => (p.1 :: q.1, q.2)))

/-- Reads one encoded string. -/
def decString (s : Str) : Option (String × Str) :=
  (decNat s).bind (fun p =>
    (decNats p.1 p.2).map (fun q => (⟨q.1.map Char.ofNat⟩, q.2)))

/-- An optional string as a presence tag followed by the payload. -/
def encOptString : Option String → Str
  | none => encNat 0
  | some s => encNat 1 ++ encString s

/-- Reads one encoded optional string. -/
def decOptString (s : Str) : Option (Option String × Str) :=
  (decNat s).bind (fun p =>
    if p.1 = 0 then some (none, p.2)
    else if p.1 = 1 then
      (decString p.2).map (fun q => (some q.1, q.2))
    else none)

/-- An optional token kind as a three-valued tag. -/
def encOptType : Option TokenType → Str
  | none => encNat 0
  | some .access => encNat 1
  | some .refresh => encNat 2

/-- Reads one encoded optional token kind. -/
def decOptType (s : Str) : Option (Option TokenType × Str) :=
  (decNat s).bind (fun p =>
    if p.1 = 0 then some (none, p.2)
    else if p.1 = 1 then some (some .access, p.2)
    else if p.1 = 2 then some (some .refresh, p.2)
    else none)

/-- Concrete payload serialization for the witness instance: the seven
fields in order, over the alphabet `{'0', '1', ';'}` (never `'.'`). -/
def toySerialize (p : JWTPayload) : Str :=
  encString p.userId ++ encString p.email ++ encString p.role ++
  encInt p.iat ++ encInt p.exp ++ encOptType p.type ++ encOptString p.jti

/-- Concrete payload parser: the seven fields in order, requiring the
input to be consumed exactly. -/
def toyParse (s : Str) : Option JWTPayload :=
  (decString s).bind (fun a =>
    (decString a.2).bind (fun b =>
      (decString b.2).bind (fun c =>
        (decInt c.2).bind (fun d =>
          (decInt d.2).bind (fun e =>
            (decOptType e.2).bind (fun f =>
              (decOptString f.2).bind (fun g =>
                if g.2 = [] then
                  some ⟨a.1, b.1, c.1, d.1, e.1, f.1, g.1⟩
                else none)))))))

/-- Concrete keyed MAC for the witness instance: the encoded secret
followed by each data character's code point (injective in the data,
never emits `'.'`). -/
def toyMac (secret : String) (data : Str) : Str :=
  encString secret ++ (data.map (fun c => encNat c.toNat)).flatten

/-- The concrete, executable primitive bundle used by the witnesses. -/
def toyPrim : Prim :=
  ⟨toyMac, toySerialize, toyParse, ['H']⟩

/-- The revoke-all scenario of the spec: from a fresh manager, issue two
refresh tokens for `u1` (UUIDs `j1`, `j2`) and one for `u2` (UUID `j3`),
then `revokeAllUserTokens u1.userId`. -/
def revokeAllScenario (secret : String) (P : Prim) (u1 u2 : UserClaims)
    (j1 j2 j3 : String) (now : Int) : TokenManager :=
  let tm0 := TokenManager.create secret
  let tm1 := (tm0.generateTokenPair P u1 j1 now).2
  let tm2 := (tm1.generateTokenPair P u1 j2 now).2
  let tm3 := (tm2.generateTokenPair P u2 j3 now).2
  tm3.revokeAllUserTokens u1.userId

theorem charToSextet_sextetToChar {s : Nat} (h : s < 64) :
    charToSextet (sextetToChar s) = some s := by
  revert h
  revert s
  decide

theorem sextetToChar_ne_pad {s : Nat} (h : s < 64) : sextetToChar s ≠ '=' := by
  revert h
  revert s
  decide

theorem substEnc_sextetToChar_ne_pad {s : Nat} (h : s < 64) :
    substEnc (sextetToChar s) ≠ '=' := by
  revert h
  revert s
  decide

theorem substDec_substEnc_sextetToChar {s : Nat} (h : s < 64) :
    substDec (substEnc (sextetToChar s)) = sextetToChar s := by
  revert h
  revert s
  decide

theorem substDec_pad : substDec '=' = '=' := by decide

theorem substEnc_pad : substEnc '=' = '=' := by decide

/-- C5 auxiliary: the encoder on a block of three or more bytes peels off
four non-pad characters and recurses. -/
theorem base64UrlEncode_cons3 (b0 b1 b2 : Nat) (rest : List Nat)
    (h0 : b0 < 256) (h1 : b1 < 256) (h2 : b2 < 256) :
    base64UrlEncode (b0 :: b1 :: b2 :: rest) =
      substEnc (sextetToChar (b0 / 4)) ::
      substEnc (sextetToChar (b0 % 4 * 16 + b1 / 16)) ::
      substEnc (sextetToChar (b1 % 16 * 4 + b2 / 64)) ::
      substEnc (sextetToChar (b2 % 64)) :: base64UrlEncode rest := by
  have e0 := substEnc_sextetToChar_ne_pad (s := b0 / 4) (by omega)
  have e1 := substEnc_sextetToChar_ne_pad (s := b0 % 4 * 16 + b1 / 16) (by omega)
  have e2 := substEnc_sextetToChar_ne_pad (s := b1 % 16 * 4 + b2 / 64) (by omega)
  have e3 := substEnc_sextetToChar_ne_pad (s := b2 % 64) (by omega)
  simp [base64UrlEncode, btoa, List.filter_cons, e0, e1, e2, e3]

/-- C5: the codec round-trips byte-exactly — `base64UrlDecode` is a left
inverse of `base64UrlEncode` on every byte sequence. -/
theorem base64UrlDecode_base64UrlEncode (bytes : List Nat)
    (h : ∀ b ∈ bytes, b < 256) :
    base64UrlDecode (base64UrlEncode bytes) = some bytes := by
  induction bytes using btoa.induct with
  | case1 => decide
  | case2 b0 =>
    have hb0 : b0 < 256 := h b0 (by simp)
    have e0 := substEnc_sextetToChar_ne_pad (s := b0 / 4) (by omega)
    have e1 := substEnc_sextetToChar_ne_pad (s := b0 % 4 * 16) (by omega)
    have henc : base64UrlEncode [b0] =
        [substEnc (sextetToChar (b0 / 4)), substEnc (sextetToChar (b0 % 4 * 16))] := by
      simp [base64UrlEncode, btoa, List.filter_cons, e0, e1, substEnc_pad]
    rw [henc]
    have d0 := substDec_substEnc_sextetToChar (s := b0 / 4) (by omega)
    have d1 := substDec_substEnc_sextetToChar (s := b0 % 4 * 16) (by omega)
    have c0 := charToSextet_sextetToChar (s := b0 / 4) (by omega)
    have c1 := charToSextet_sextetToChar (s := b0 % 4 * 16) (by omega)
    simp [base64UrlDecode, List.replicate, atob, d0, d1, substDec_pad, c0, c1]
    omega
  | case3 b0 b1 =>
    have hb0 : b0 < 256 := h b0 (by simp)
    have hb1 : b1 < 256 := h b1 (by simp)
    have e0 := substEnc_sextetToChar_ne_pad (s := b0 / 4) (by omega)
    have e1 := substEnc_sextetToChar_ne_pad (s := b0 % 4 * 16 + b1 / 16) (by omega)
    have e2 := substEnc_sextetToChar_ne_pad (s := b1 % 16 * 4) (by omega)
    have henc : base64UrlEncode [b0, b1] =
        [substEnc (sextetToChar (b0 / 4)),
         substEnc (sextetToChar (b0 % 4 * 16 + b1 / 16)),
         substEnc (sextetToChar (b1 % 16 * 4))] := by
      simp [base64UrlEncode, btoa, List.filter_cons, e0, e1, e2, substEnc_pad]
    rw [henc]
    have d0 := substDec_substEnc_sextetToChar (s := b0 / 4) (by omega)
    have d1 := substDec_substEnc_sextetToChar (s := b0 % 4 * 16 + b1 / 16) (by omega)
    have d2 := substDec_substEnc_sextetToChar (s := b1 % 16 * 4) (by omega)
    have c0 := charToSextet_sextetToChar (s := b0 / 4) (by omega)
    have c1 := charToSextet_sextetToChar (s := b0 % 4 * 16 + b1 / 16) (by omega)
    have c2 := charToSextet_sextetToChar (s := b1 % 16 * 4) (by omega)
    have n2 := sextetToChar_ne_pad (s := b1 % 16 * 4) (by omega)
    simp [base64UrlDecode, List.replicate, atob, d0, d1, d2, substDec_pad,
      c0, c1, c2, n2]
    omega
  | case4 b0 b1 b2 rest ih =>
    have hb0 : b0 < 256 := h b0 (by simp)
    have hb1 : b1 < 256 := h b1 (by simp)
    have hb2 : b2 < 256 := h b2 (by simp)
    have hrest : ∀ b ∈ rest, b < 256 := by
      intro b hb
      exact h b (by simp [hb])
    rw [base64UrlEncode_cons3 b0 b1 b2 rest hb0 hb1 hb2]
    have d0 := substDec_substEnc_sextetToChar (s := b0 / 4) (by omega)
    have d1 := substDec_substEnc_sextetToChar (s := b0 % 4 * 16 + b1 / 16) (by omega)
    have d2 := substDec_substEnc_sextetToChar (s := b1 % 16 * 4 + b2 / 64) (by omega)
    have d3 := substDec_substEnc_sextetToChar (s := b2 % 64) (by omega)
    have c0 := charToSextet_sextetToChar (s := b0 / 4) (by omega)
    have c1 := charToSextet_sextetToChar (s := b0 % 4 * 16 + b1 / 16) (by omega)
    have c2 := charToSextet_sextetToChar (s := b1 % 16 * 4 + b2 / 64) (by omega)
    have c3 := charToSextet_sextetToChar (s := b2 % 64) (by omega)
    have n2 := sextetToChar_ne_pad (s := b1 % 16 * 4 + b2 / 64) (by omega)
    have n3 := sextetToChar_ne_pad (s := b2 % 64) (by omega)
    have hlen : (4 - (base64UrlEncode (b0 :: b1 :: b2 :: rest)).length % 4) % 4 =
        (4 - (base64UrlEncode rest).length % 4) % 4 := by
      rw [base64UrlEncode_cons3 b0 b1 b2 rest hb0 hb1 hb2]
      simp
      omega
    have hdec := ih hrest
    unfold base64UrlDecode at hdec ⊢
    simp only [List.length_cons, List.cons_append, List.map_cons]
    have hmod : (4 - (4 + (base64UrlEncode rest).length) % 4) % 4 =
        (4 - (base64UrlEncode rest).length % 4) % 4 := by omega
    rw [show (base64UrlEncode rest).length + 1 + 1 + 1 + 1 =
      4 + (base64UrlEncode rest).length by omega, hmod]
    rw [d0, d1, d2, d3]
    rw [atob]
    simp only [c0, c1, c2, c3, n2, n3, hdec, if_false]
    simp
    omega

theorem splitOnDot_no_dot {a : Str} (h : '.' ∉ a) : splitOnDot a = [a] := by
  induction a with
  | nil => rfl
  | cons c cs ih =>
    simp only [List.mem_cons, not_or] at h
    rw [splitOnDot, if_neg (fun hc => h.1 hc.symm), ih h.2]

theorem splitOnDot_append {a : Str} (rest : Str) (h : '.' ∉ a) :
    splitOnDot (a ++ '.' :: rest) = a :: splitOnDot rest := by
  induction a with
  | nil => rw [List.nil_append, splitOnDot, if_pos rfl]
  | cons c cs ih =>
    simp only [List.mem_cons, not_or] at h
    rw [List.cons_append, splitOnDot, if_neg (fun hc => h.1 hc.symm), ih h.2]

/-- Splitting a well-formed three-segment token recovers the segments. -/
theorem splitOnDot_sign (hdr pl sig : Str) (h1 : '.' ∉ hdr) (h2 : '.' ∉ pl)
    (h3 : '.' ∉ sig) :
    splitOnDot (hdr ++ '.' :: pl ++ '.' :: sig) = [hdr, pl, sig] := by
  have hassoc : hdr ++ '.' :: pl ++ '.' :: sig = hdr ++ '.' :: (pl ++ '.' :: sig) := by
    simp
  rw [hassoc, splitOnDot_append _ h1, splitOnDot_append _ h2, splitOnDot_no_dot h3]

/-- Lemma: `verify` accepts a token freshly produced by `sign` (any kind, any
`jti`) whenever the expiry check passes, and returns exactly the signed
payload. -/
theorem verify_sign (j : JWT) (P : Prim) (hG : P.Good) (base : UserClaims)
    (ty : Option TokenType) (jti : Option String) (expiresIn now now2 : Int)
    (hexp : ¬ (now + expiresIn < now2)) :
    j.verify P (j.sign P base ty jti expiresIn now) now2 =
      .ok ⟨base.userId, base.email, base.role, now, now + expiresIn, ty, jti⟩ := by
  obtain ⟨hparse, hser, hmac, hhdr⟩ := hG
  unfold JWT.sign JWT.verify
  rw [splitOnDot_sign _ _ _ hhdr (hser _) (hmac _ _)]
  simp [hparse, hexp]

/-- C3: `JWT.verify` performs its checks in the stated order: a token
that does not split on `'.'` into exactly 3 segments fails as
`MalformedToken` (`ApiError('Invalid token format', 401)`); otherwise a
third segment differing from the recomputed HMAC over the first two
fails as `BadSignature` (`ApiError('Invalid token signature', 401)`) —
in particular a signed token whose payload segment was mutated without
re-signing fails there (not at a later check), whether or not the
mutated payload parses; otherwise an undecodable payload fails as
`MalformedPayload` (the thrown `SyntaxError`); otherwise `exp < now`
fails as `Expired` (`ApiError('Token has expired', 401)`); otherwise the
parsed claims are returned. -/
theorem C3_verify_check_order (j : JWT) (P : Prim) (t : Str) (now : Int) :
    ((splitOnDot t).length ≠ 3 →
      j.verify P t now = .error (.api ⟨"Invalid token format", 401⟩)) ∧
    (∀ hdr pl sig, splitOnDot t = [hdr, pl, sig] →
      sig ≠ P.mac j.secret (hdr ++ '.' :: pl) →
      j.verify P t now = .error (.api ⟨"Invalid token signature", 401⟩)) ∧
    (∀ hdr pl sig, splitOnDot t = [hdr, pl, sig] →
      sig = P.mac j.secret (hdr ++ '.' :: pl) → P.parse pl = none →
      j.verify P t now = .error .jsonError) ∧
    (∀ hdr pl sig payload, splitOnDot t = [hdr, pl, sig] →
      sig = P.mac j.secret (hdr ++ '.' :: pl) → P.parse pl = some payload →
      payload.exp < now →
      j.verify P t now = .error (.api ⟨"Token has expired", 401⟩)) ∧
    (∀ hdr pl sig payload, splitOnDot t = [hdr, pl, sig] →
      sig = P.mac j.secret (hdr ++ '.' :: pl) → P.parse pl = some payload →
      ¬ payload.exp < now → j.verify P t now = .ok payload) ∧
    (∀ (hG : P.Good) (base : UserClaims) (ty : Option TokenType)
        (jti : Option String) (ei now0 : Int) (pl2 : Str),
      t = P.headerB64 ++ '.' :: pl2 ++ '.' ::
            P.mac j.secret (P.headerB64 ++ '.' ::
              P.serialize ⟨base.userId, base.email, base.role, now0, now0 + ei, ty, jti⟩) →
      '.' ∉ pl2 →
      P.mac j.secret (P.headerB64 ++ '.' ::
          P.serialize ⟨base.userId, base.email, base.role, now0, now0 + ei, ty, jti⟩) ≠
        P.mac j.secret (P.headerB64 ++ '.' :: pl2) →
      j.verify P t now = .error (.api ⟨"Invalid token signature", 401⟩)) := by
  refine ⟨?_, ?_, ?_, ?_, ?_, ?_⟩
  · intro hlen
    unfold JWT.verify
    rcases hs : splitOnDot t with _ | ⟨a, _ | ⟨b, _ | ⟨c, _ | ⟨d, rest⟩⟩⟩⟩ <;>
      simp_all
  · intro hdr pl sig hs hne
    unfold JWT.verify
    rw [hs]
    simp [hne]
  · intro hdr pl sig hs hsig hparse
    unfold JWT.verify
    rw [hs]
    simp [hsig, hparse]
  · intro hdr pl sig payload hs hsig hparse hexp
    unfold JWT.verify
    rw [hs]
    simp [hsig, hparse, hexp]
  · intro hdr pl sig payload hs hsig hparse hexp
    unfold JWT.verify
    rw [hs]
    simp [hsig, hparse, hexp]
  · intro hG base ty jti ei now0 pl2 ht hpl2 hne
    obtain ⟨hparse, hser, hmac, hhdr⟩ := hG
    unfold JWT.verify
    rw [ht, splitOnDot_sign _ _ _ hhdr hpl2 (hmac _ _)]
    simp only [JWT.verify.eq_def]
    simp
    exact fun hc => absurd hc hne

theorem decNat_encNatAux (fuel : Nat) :
    ∀ n, n ≤ fuel → ∀ rest, decNat (encNatAux fuel n ++ ';' :: rest) = some (n, rest) := by
  induction fuel with
  | zero =>
    intro n hn rest
    have h0 : n = 0 := by omega
    subst h0
    rw [encNatAux, List.nil_append, decNat]
    simp
  | succ f ih =>
    intro n hn rest
    by_cases h0 : n = 0
    · subst h0
      rw [encNatAux, if_pos rfl, List.nil_append, decNat]
      simp
    · rw [encNatAux, if_neg h0]
      by_cases hp : n % 2 = 1
      · rw [if_pos hp, List.cons_append, decNat]
        simp only [ih (n / 2) (by omega) rest]
        simp
        omega
      · rw [if_neg hp, List.cons_append, decNat]
        simp only [ih (n / 2) (by omega) rest]
        simp
        omega

theorem decNat_encNat (n : Nat) (rest : Str) :
    decNat (encNat n ++ rest) = some (n, rest) := by
  have h : encNat n ++ rest = encNatAux n n ++ ';' :: rest := by
    rw [encNat, List.append_assoc]
    rfl
  rw [h, decNat_encNatAux n n (le_refl n) rest]

theorem decNats_enc (cs : List Char) (rest : Str) :
    decNats cs.length ((cs.map (fun c => encNat c.toNat)).flatten ++ rest) =
      some (cs.map Char.toNat, rest) := by
  induction cs with
  | nil => rfl
  | cons c cs ih =>
    rw [List.length_cons, List.map_cons, List.flatten_cons, List.append_assoc,
      decNats, decNat_encNat]
    simp [ih]

theorem decString_encString (s : String) (rest : Str) :
    decString (encString s ++ rest) = some (s, rest) := by
  obtain ⟨d⟩ := s
  rw [encString, decString, List.append_assoc, decNat_encNat]
  simp only [Option.some_bind]
  have hlen : (String.mk d).length = d.length := rfl
  rw [hlen, decNats_enc]
  simp only [Option.map_some']
  have : (d.map Char.toNat).map Char.ofNat = d := by
    rw [List.map_map]
    simp [Function.comp_def, Char.ofNat_toNat]
  simp [this]

theorem decInt_encInt (i : Int) (rest : Str) :
    decInt (encInt i ++ rest) = some (i, rest) := by
  rw [encInt, decInt, List.append_assoc, decNat_encNat]
  simp only [Option.some_bind]
  rw [decNat_encNat]
  simp only [Option.map_some']
  by_cases h : i < 0
  · rw [if_pos h, if_pos rfl]
    simp only [Option.some.injEq, Prod.mk.injEq]
    exact ⟨by omega, trivial⟩
  · rw [if_neg h, if_neg (by omega : ¬ ((0 : Nat) = 1))]
    simp only [Option.some.injEq, Prod.mk.injEq]
    exact ⟨by omega, trivial⟩

theorem decOptString_encOptString (o : Option String) (rest : Str) :
    decOptString (encOptString o ++ rest) = some (o, rest) := by
  cases o with
  | none =>
    rw [encOptString, decOptString, decNat_encNat]
    simp
  | some s =>
    rw [encOptString, decOptString, List.append_assoc, decNat_encNat]
    simp only [Option.some_bind]
    have h10 : ¬ ((1 : Nat) = 0) := by omega
    simp only [if_neg h10, if_pos rfl]
    rw [decString_encString]
    simp

theorem decOptType_encOptType (o : Option TokenType) (rest : Str) :
    decOptType (encOptType o ++ rest) = some (o, rest) := by
  cases o with
  | none => rw [encOptType, decOptType, decNat_encNat]; simp
  | some t =>
    cases t with
    | access => rw [encOptType, decOptType, decNat_encNat]; simp
    | refresh => rw [encOptType, decOptType, decNat_encNat]; simp

/-- The concrete serializer round-trips through the concrete parser. -/
theorem toyParse_toySerialize (p : JWTPayload) :
    toyParse (toySerialize p) = some p := by
  obtain ⟨u, e, r, ia, ex, ty, jt⟩ := p
  rw [toySerialize, toyParse]
  simp only [List.append_assoc]
  rw [decString_encString]
  simp only [Option.some_bind]
  rw [decString_encString]
  simp only [Option.some_bind]
  have hr : encString r ++ (encInt ia ++ (encInt ex ++ (encOptType ty ++ encOptString jt))) =
      encString r ++ (encInt ia ++ (encInt ex ++ (encOptType ty ++ (encOptString jt ++ [])))) := by
    simp
  rw [hr, decString_encString]
  simp only [Option.some_bind]
  rw [decInt_encInt]
  simp only [Option.some_bind]
  rw [decInt_encInt]
  simp only [Option.some_bind]
  rw [decOptType_encOptType]
  simp only [Option.some_bind]
  rw [decOptString_encOptString]
  simp

theorem not_dot_encNatAux (fuel : Nat) : ∀ n, '.' ∉ encNatAux fuel n := by
  induction fuel with
  | zero => intro n; rw [encNatAux]; simp
  | succ f ih =>
    intro n
    by_cases h0 : n = 0
    · subst h0; rw [encNatAux, if_pos rfl]; simp
    · rw [encNatAux, if_neg h0]
      by_cases hp : n % 2 = 1
      · rw [if_pos hp]
        simp only [List.mem_cons, not_or]
        exact ⟨by decide, ih (n / 2)⟩
      · rw [if_neg hp]
        simp only [List.mem_cons, not_or]
        exact ⟨by decide, ih (n / 2)⟩

theorem not_dot_encNat (n : Nat) : '.' ∉ encNat n := by
  rw [encNat]
  simp only [List.mem_append, not_or]
  exact ⟨not_dot_encNatAux n n, by decide⟩

theorem not_dot_encString (s : String) : '.' ∉ encString s := by
  rw [encString]
  simp only [List.mem_append, not_or]
  refine ⟨not_dot_encNat _, ?_⟩
  intro hmem
  rw [List.mem_flatten] at hmem
  obtain ⟨l, hl, hcl⟩ := hmem
  rw [List.mem_map] at hl
  obtain ⟨c, _, hc⟩ := hl
  exact not_dot_encNat c.toNat (hc ▸ hcl)

theorem not_dot_encInt (i : Int) : '.' ∉ encInt i := by
  rw [encInt]
  simp only [List.mem_append, not_or]
  exact ⟨not_dot_encNat _, not_dot_encNat _⟩

theorem not_dot_encOptString (o : Option String) : '.' ∉ encOptString o := by
  cases o with
  | none => exact not_dot_encNat 0
  | some s =>
    rw [encOptString]
    simp only [List.mem_append, not_or]
    exact ⟨not_dot_encNat 1, not_dot_encString s⟩

theorem not_dot_encOptType (o : Option TokenType) : '.' ∉ encOptType o := by
  cases o with
  | none => exact not_dot_encNat 0
  | some t =>
    cases t with
    | access => exact not_dot_encNat 1
    | refresh => exact not_dot_encNat 2

theorem not_dot_toySerialize (p : JWTPayload) : '.' ∉ toySerialize p := by
  rw [toySerialize]
  simp only [List.mem_append, not_or]
  exact ⟨⟨⟨⟨⟨⟨not_dot_encString _, not_dot_encString _⟩, not_dot_encString _⟩,
    not_dot_encInt _⟩, not_dot_encInt _⟩, not_dot_encOptType _⟩,
    not_dot_encOptString _⟩

theorem not_dot_toyMac (secret : String) (data : Str) :
    '.' ∉ toyMac secret data := by
  rw [toyMac]
  simp only [List.mem_append, not_or]
  refine ⟨not_dot_encString _, ?_⟩
  intro hmem
  rw [List.mem_flatten] at hmem
  obtain ⟨l, hl, hcl⟩ := hmem
  rw [List.mem_map] at hl
  obtain ⟨c, _, hc⟩ := hl
  exact not_dot_encNat c.toNat (hc ▸ hcl)

/-- The concrete primitive bundle satisfies all faithfulness assumptions. -/
theorem toyPrim_good : toyPrim.Good :=
  ⟨toyParse_toySerialize, not_dot_toySerialize, not_dot_toyMac, by decide⟩

theorem assoc_find_filter_ne {α : Type} (l : List (String × α)) (k : String) :
    (l.filter (fun e => e.1 ≠ k)).find? (fun e => e.1 = k) = none := by
  induction l with
  | nil => rfl
  | cons e es ih =>
    by_cases hek : e.1 = k
    · simp [List.filter_cons, hek, ih]
    · simp [List.filter_cons, hek, List.find?, ih]

theorem storeGet_storeDelete (store : RefreshStore) (k : String) :
    storeGet (storeDelete store k) k = none := by
  rw [storeGet, storeDelete, assoc_find_filter_ne]
  rfl

theorem assoc_find_set {α : Type} (l : List (String × α)) (k : String) (v : α) :
    ((if l.any (fun e => e.1 = k) then
        l.map (fun e => if e.1 = k then (k, v) else e)
      else l ++ [(k, v)]).find? (fun e => e.1 = k)) = some (k, v) := by
  by_cases h : l.any (fun e => e.1 = k)
  · rw [if_pos h]
    induction l with
    | nil => simp at h
    | cons e es ih =>
      by_cases hek : e.1 = k
      · simp [List.find?, hek]
      · rw [List.any_cons] at h
        simp only [Bool.or_eq_true] at h
        have h2 : es.any (fun e => e.1 = k) = true := by
          rcases h with h | h
          · exact absurd (of_decide_eq_true h) hek
          · exact h
        simp [List.find?, hek, ih h2]
  · rw [if_neg h]
    induction l with
    | nil => simp [List.find?]
    | cons e es ih =>
      rw [List.any_cons] at h
      simp only [Bool.or_eq_true, not_or] at h
      have hek : ¬ (e.1 = k) := by
        intro hc
        exact h.1 (by simp [hc])
      simp [List.find?, hek, ih h.2]

theorem storeGet_storeSet (store : RefreshStore) (k : String) (v : RefreshRecord) :
    storeGet (storeSet store k v) k = some v := by
  rw [storeGet, storeSet, assoc_find_set]
  rfl

/-- A fresh refresh token passes `verifyRefreshToken` and carries
`type = refresh` and its `jti`. -/
theorem verifyRefreshToken_signRefreshToken (j : JWT) (P : Prim) (hG : P.Good)
    (base : UserClaims) (jti : String) (ei now now2 : Int)
    (hexp : ¬ (now + ei < now2)) :
    j.verifyRefreshToken P (j.signRefreshToken P base jti ei now) now2 =
      .ok ⟨base.userId, base.email, base.role, now, now + ei, some .refresh, some jti⟩ := by
  unfold JWT.verifyRefreshToken JWT.signRefreshToken
  rw [verify_sign _ _ hG _ _ _ _ _ _ hexp]
  simp

/-- A fresh access token passes `verifyAccessToken` and carries
`type = access` and no `jti`. -/
theorem verifyAccessToken_signAccessToken (j : JWT) (P : Prim) (hG : P.Good)
    (base : UserClaims) (ei now now2 : Int) (hexp : ¬ (now + ei < now2)) :
    j.verifyAccessToken P (j.signAccessToken P base ei now) now2 =
      .ok ⟨base.userId, base.email, base.role, now, now + ei, some .access, none⟩ := by
  unfold JWT.verifyAccessToken JWT.signAccessToken
  rw [verify_sign _ _ hG _ _ _ _ _ _ hexp]
  simp

/-- Lemma: `generateTokenPair` under faithful primitives: both tokens are
returned and the registry gains the `jti ↦ {userId, exp * 1000}` record. -/
theorem generateTokenPair_eq (tm : TokenManager) (P : Prim) (hG : P.Good)
    (user : UserClaims) (jti : String) (now : Int) :
    tm.generateTokenPair P user jti now =
      (.ok ⟨tm.jwt.signAccessToken P user (15 * 60) now,
            tm.jwt.signRefreshToken P user jti (7 * 24 * 60 * 60) now, 15 * 60⟩,
       ⟨tm.jwt, storeSet tm.refreshTokenStore jti
          ⟨user.userId, (now + 7 * 24 * 60 * 60) * 1000⟩⟩) := by
  have hv := verifyRefreshToken_signRefreshToken tm.jwt P hG user jti
    (7 * 24 * 60 * 60) now now (by omega)
  unfold TokenManager.generateTokenPair
  simp only [hv]

/-- C4: `verify` never inspects the `type` (token-kind) claim — a token
freshly minted by `sign` verifies and returns its payload for every
value of `type`; a `signRefreshToken` token fails `verifyAccessToken`
with the kind-mismatch `ApiError('Invalid access token', 401)`; a
`signAccessToken` token fails `verifyRefreshToken` with
`ApiError('Invalid refresh token', 401)`; and immediately after issuance
`verifyAccessToken (signAccessToken claims)` succeeds, returning the
input claims with only `iat`/`exp`/`type` added. -/
theorem C4_kind_handling (j : JWT) (P : Prim) (hG : P.Good) (base : UserClaims)
    (ty : Option TokenType) (jti0 : Option String) (jti : String) (ei now : Int)
    (hei : 0 ≤ ei) :
    (j.verify P (j.sign P base ty jti0 ei now) now =
      .ok ⟨base.userId, base.email, base.role, now, now + ei, ty, jti0⟩) ∧
    (j.verifyAccessToken P (j.signRefreshToken P base jti ei now) now =
      .error (.api ⟨"Invalid access token", 401⟩)) ∧
    (j.verifyRefreshToken P (j.signAccessToken P base ei now) now =
      .error (.api ⟨"Invalid refresh token", 401⟩)) ∧
    (j.verifyAccessToken P (j.signAccessToken P base ei now) now =
      .ok ⟨base.userId, base.email, base.role, now, now + ei, some .access, none⟩) := by
  have hexp : ¬ (now + ei < now) := by omega
  refine ⟨verify_sign _ _ hG _ _ _ _ _ _ hexp, ?_, ?_,
    verifyAccessToken_signAccessToken _ _ hG _ _ _ _ hexp⟩
  · unfold JWT.verifyAccessToken JWT.signRefreshToken
    rw [verify_sign _ _ hG _ _ _ _ _ _ hexp]
    simp
  · unfold JWT.verifyRefreshToken JWT.signAccessToken
    rw [verify_sign _ _ hG _ _ _ _ _ _ hexp]
    simp

/-- C4 witness at the concrete primitives. -/
theorem C4_kind_handling_witness :
    (JWT.mk "k").verifyRefreshToken toyPrim
        ((JWT.mk "k").signAccessToken toyPrim ⟨"u", "e", "r"⟩ 60 0) 0 =
      .error (.api ⟨"Invalid refresh token", 401⟩) :=
  (C4_kind_handling ⟨"k"⟩ toyPrim toyPrim_good ⟨"u", "e", "r"⟩ none none "j" 60 0
    (by decide)).2.2.1

/-- C10: a token from `generateUserToken` carries neither `type` nor
`jti` and expires 7 days after issuance; within its lifetime it is
accepted by plain `verify` (so routes calling `verify` directly accept
it), yet it is rejected with a 401 `ApiError` by both
`verifyAccessToken` (`'Invalid access token'`) and `verifyRefreshToken`
(`'Invalid refresh token'`), since its absent `type` matches neither
kind. -/
theorem C10_generateUserToken_kind (j : JWT) (P : Prim) (hG : P.Good)
    (user : User) (now now2 : Int) (hexp : ¬ (now + 7 * 24 * 60 * 60 < now2)) :
    (j.verify P (j.generateUserToken P user now) now2 =
      .ok ⟨user.id, user.email, user.role, now, now + 7 * 24 * 60 * 60, none, none⟩) ∧
    (j.verifyAccessToken P (j.generateUserToken P user now) now2 =
      .error (.api ⟨"Invalid access token", 401⟩)) ∧
    (j.verifyRefreshToken P (j.generateUserToken P user now) now2 =
      .error (.api ⟨"Invalid refresh token", 401⟩)) := by
  have hv : j.verify P (j.generateUserToken P user now) now2 =
      .ok ⟨user.id, user.email, user.role, now, now + 7 * 24 * 60 * 60, none, none⟩ := by
    unfold JWT.generateUserToken
    exact verify_sign _ _ hG _ _ _ _ _ _ hexp
  refine ⟨hv, ?_, ?_⟩
  · unfold JWT.verifyAccessToken
    rw [hv]
    simp
  · unfold JWT.verifyRefreshToken
    rw [hv]
    simp

/-- C10 witness at the concrete primitives. -/
theorem C10_generateUserToken_kind_witness :
    (JWT.mk "k").verifyAccessToken toyPrim
        ((JWT.mk "k").generateUserToken toyPrim ⟨"u", "e", "r"⟩ 0) 0 =
      .error (.api ⟨"Invalid access token", 401⟩) :=
  (C10_generateUserToken_kind ⟨"k"⟩ toyPrim toyPrim_good ⟨"u", "e", "r"⟩ 0 0
    (by decide)).2.1

/-- C3 witness: a one-segment string fails as `MalformedToken`, and a
three-segment token whose signature does not match fails as
`BadSignature`. -/
theorem C3_verify_check_order_witness :
    (JWT.mk "k").verify toyPrim ('x' :: []) 0 =
      .error (.api ⟨"Invalid token format", 401⟩) ∧
    (JWT.mk "k").verify toyPrim ('H' :: '.' :: 'p' :: '.' :: 'z' :: []) 0 =
      .error (.api ⟨"Invalid token signature", 401⟩) :=
  ⟨(C3_verify_check_order ⟨"k"⟩ toyPrim ('x' :: []) 0).1 (by decide),
   (C3_verify_check_order ⟨"k"⟩ toyPrim ('H' :: '.' :: 'p' :: '.' :: 'z' :: []) 0).2.1
     ('H' :: []) ('p' :: []) ('z' :: []) (by decide) (by decide)⟩

set_option maxRecDepth 4000 in
/-- C5 witness: the round trip at a sequence containing every byte value
0–255. -/
theorem base64UrlDecode_base64UrlEncode_witness :
    base64UrlDecode (base64UrlEncode (List.range 256)) = some (List.range 256) :=
  base64UrlDecode_base64UrlEncode (List.range 256) (by decide)

/-- C6: evaluation of `hasPermission` at the failing input
`('toString', 'toString')` — the bracket lookups find the inherited
`Object.prototype.toString` on both sides, so the nullish-coalescing
defaults never fire, and the identical member compares equal to itself
as a primitive string, making `>=` hold: the code returns `true` where
the claim's fail-closed property requires `false` for every requirement
outside the enumeration.  The four spec examples, whose roles avoid
inherited property names, still behave as claimed. -/
theorem C6_hasPermission_prototype_leak :
    hasPermission "toString" "toString" = true ∧
    roleHierarchy "toString" = .inherited "toString" ∧
    hasPermission "toString" "user" = false ∧
    hasPermission "admin" "toString" = false ∧
    hasPermission "admin" "user" = true ∧
    hasPermission "user" "admin" = false ∧
    hasPermission "collaborator" "collaborator" = true ∧
    hasPermission "bogus" "user" = false := by decide

theorem strHasPre_iff (hd pre : Str) :
    strHasPre hd pre = true ↔ ∃ t, hd = pre ++ t := by
  induction pre generalizing hd with
  | nil =>
    cases hd with
    | nil => simp [strHasPre]
    | cons c cs => simp [strHasPre]
  | cons p ps ih =>
    cases hd with
    | nil => simp [strHasPre]
    | cons c cs =>
      rw [strHasPre]
      simp only [Bool.and_eq_true, decide_eq_true_eq, ih]
      constructor
      · rintro ⟨hc, t, ht⟩
        exact ⟨t, by simp [hc, ht]⟩
      · rintro ⟨t, ht⟩
        simp only [List.cons_append, List.cons.injEq] at ht
        exact ⟨ht.1, t, ht.2⟩

/-- C7: `extractTokenFromHeader` returns a token exactly when the
`Authorization` header is literally `'Bearer '` (case-sensitive scheme
word, single space) followed by that token; every other header shape —
absent header, different scheme, different case, no space — yields
`none` (no token found), not an error. -/
theorem C7_extractTokenFromHeader_shape :
    (∀ (h : Option Str) (t : Str),
      extractTokenFromHeader h = some t ↔ h = some (bearerSp ++ t)) ∧
    extractTokenFromHeader none = none := by
  refine ⟨?_, rfl⟩
  intro h t
  cases h with
  | none => simp [extractTokenFromHeader]
  | some hd =>
    rw [extractTokenFromHeader]
    by_cases hpre : strHasPre hd bearerSp
    · rw [if_pos hpre]
      obtain ⟨t0, ht0⟩ := (strHasPre_iff hd bearerSp).mp hpre
      subst ht0
      have hdrop : (bearerSp ++ t0).drop 7 = t0 := by
        have : (7 : Nat) = bearerSp.length := by decide
        rw [this, List.drop_left]
      rw [hdrop]
      constructor
      · rintro h1
        simp only [Option.some.injEq] at h1
        simp [h1]
      · intro h1
        simp only [Option.some.injEq, List.append_cancel_left_eq] at h1
        simp [h1]
    · rw [if_neg hpre]
      constructor
      · intro h1
        exact absurd h1 (by simp)
      · intro h1
        simp only [Option.some.injEq] at h1
        exact absurd ((strHasPre_iff hd bearerSp).mpr ⟨t, h1⟩) hpre

/-- C9: the module-level accessor ignores its `secret` argument after
first use — the first call stores a manager keyed with `s1`, and every
later call, whatever secret it passes, returns that same stored instance
and leaves the global unchanged. -/
theorem C9_getTokenManager_singleton (s1 s2 : String) :
    ((getTokenManager s1 none).1.jwt.secret = s1) ∧
    (∀ tm : TokenManager, getTokenManager s2 (some tm) = (tm, some tm)) ∧
    (getTokenManager s2 (getTokenManager s1 none).2 =
      ((getTokenManager s1 none).1, (getTokenManager s1 none).2)) := by
  refine ⟨rfl, fun tm => rfl, rfl⟩

/-- C1 (amended): for every refresh-token string, `refreshAccessToken`
behaves as follows.  If `verifyRefreshToken` rejects the string, or the
verified claims lack a `jti`, or the `jti` is absent from the registry,
the call fails with `InvalidRefreshToken`
(`ApiError('Invalid refresh token', 401)`) and the registry is
unchanged.  If the record is present but its stored expiry is earlier
than the current time, the stale record is removed and the call fails —
but the surfaced error is again `ApiError('Invalid refresh token', 401)`,
because the method's catch-all replaces the internally thrown
`'Refresh token expired'` error.  On success the call returns one new
15-minute access token carrying the refresh token's `userId`, `email`
and `role`, and the registry record is left in place (no rotation). -/
theorem C1_refreshAccessToken_lifecycle (tm : TokenManager) (P : Prim)
    (t : Str) (nowMs : Int) :
    (∀ e, tm.jwt.verifyRefreshToken P t (nowMs / 1000) = .error e →
      tm.refreshAccessToken P t nowMs =
        (.error (.api ⟨"Invalid refresh token", 401⟩), tm)) ∧
    (∀ pl, tm.jwt.verifyRefreshToken P t (nowMs / 1000) = .ok pl →
      pl.jti = none →
      tm.refreshAccessToken P t nowMs =
        (.error (.api ⟨"Invalid refresh token", 401⟩), tm)) ∧
    (∀ pl j, tm.jwt.verifyRefreshToken P t (nowMs / 1000) = .ok pl →
      pl.jti = some j → storeGet tm.refreshTokenStore j = none →
      tm.refreshAccessToken P t nowMs =
        (.error (.api ⟨"Invalid refresh token", 401⟩), tm)) ∧
    (∀ pl j r, tm.jwt.verifyRefreshToken P t (nowMs / 1000) = .ok pl →
      pl.jti = some j → storeGet tm.refreshTokenStore j = some r →
      nowMs > r.expiresAt →
      tm.refreshAccessToken P t nowMs =
        (.error (.api ⟨"Invalid refresh token", 401⟩),
         ⟨tm.jwt, storeDelete tm.refreshTokenStore j⟩)) ∧
    (∀ pl j r, tm.jwt.verifyRefreshToken P t (nowMs / 1000) = .ok pl →
      pl.jti = some j → storeGet tm.refreshTokenStore j = some r →
      ¬ nowMs > r.expiresAt →
      tm.refreshAccessToken P t nowMs =
        (.ok ⟨tm.jwt.signAccessToken P ⟨pl.userId, pl.email, pl.role⟩
            (15 * 60) (nowMs / 1000), 15 * 60⟩, tm)) := by
  refine ⟨?_, ?_, ?_, ?_, ?_⟩
  · intro e hv
    unfold TokenManager.refreshAccessToken TokenManager.refreshAccessTokenTry
    rw [hv]
  · intro pl hv hj
    unfold TokenManager.refreshAccessToken TokenManager.refreshAccessTokenTry
    simp [hv, hj]
  · intro pl j hv hj hs
    unfold TokenManager.refreshAccessToken TokenManager.refreshAccessTokenTry
    simp [hv, hj, hs]
  · intro pl j r hv hj hs hexp
    unfold TokenManager.refreshAccessToken TokenManager.refreshAccessTokenTry
    simp [hv, hj, hs, hexp]
  · intro pl j r hv hj hs hexp
    unfold TokenManager.refreshAccessToken TokenManager.refreshAccessTokenTry
    simp [hv, hj, hs, hexp]

/-- C1 counterexample: a structurally valid refresh token whose registry
record has expired (stored expiry 5000 ms, current time 1000000 ms) is
evicted, but the surfaced failure is `ApiError('Invalid refresh token',
401)` — not the `ApiError('Refresh token expired', 401)` the claim
states the call fails with. -/
theorem C1_refreshAccessToken_counterexample :
    (TokenManager.mk ⟨"k"⟩ [("j1", ⟨"u", 5000⟩)]).refreshAccessToken toyPrim
        ((JWT.mk "k").signRefreshToken toyPrim ⟨"u", "e", "r"⟩ "j1" 604800 0)
        1000000 =
      (.error (.api ⟨"Invalid refresh token", 401⟩), ⟨⟨"k"⟩, []⟩) ∧
    (Thrown.api ⟨"Invalid refresh token", 401⟩ ≠
      Thrown.api ⟨"Refresh token expired", 401⟩) := by
  constructor
  · have hv := verifyRefreshToken_signRefreshToken ⟨"k"⟩ toyPrim toyPrim_good
      ⟨"u", "e", "r"⟩ "j1" 604800 0 (1000000 / 1000) (by decide)
    unfold TokenManager.refreshAccessToken TokenManager.refreshAccessTokenTry
    rw [hv]
    have hg : storeGet [("j1", (⟨"u", 5000⟩ : RefreshRecord))] "j1" =
        some ⟨"u", 5000⟩ := rfl
    have hd : storeDelete [("j1", (⟨"u", 5000⟩ : RefreshRecord))] "j1" = [] := rfl
    simp [hg, hd, show (1000000 : Int) > 5000 by decide]
  · decide

/-- C1 witness: the success path at concrete inputs — the registry
record is left in place and a fresh access token for the same identity
is returned. -/
theorem C1_refreshAccessToken_lifecycle_witness :
    (TokenManager.mk ⟨"k"⟩ [("j1", ⟨"u", 2000000⟩)]).refreshAccessToken toyPrim
        ((JWT.mk "k").signRefreshToken toyPrim ⟨"u", "e", "r"⟩ "j1" 604800 0)
        1000000 =
      (.ok ⟨(JWT.mk "k").signAccessToken toyPrim ⟨"u", "e", "r"⟩ (15 * 60)
          (1000000 / 1000), 15 * 60⟩,
       ⟨⟨"k"⟩, [("j1", ⟨"u", 2000000⟩)]⟩) :=
  (C1_refreshAccessToken_lifecycle ⟨⟨"k"⟩, [("j1", ⟨"u", 2000000⟩)]⟩ toyPrim
      ((JWT.mk "k").signRefreshToken toyPrim ⟨"u", "e", "r"⟩ "j1" 604800 0)
      1000000).2.2.2.2
    ⟨"u", "e", "r", 0, 604800, some .refresh, some "j1"⟩ "j1" ⟨"u", 2000000⟩
    (verifyRefreshToken_signRefreshToken ⟨"k"⟩ toyPrim toyPrim_good
      ⟨"u", "e", "r"⟩ "j1" 604800 0 (1000000 / 1000) (by decide))
    rfl rfl (by decide)

theorem storeSet_of_any_false (store : RefreshStore) (k : String)
    (v : RefreshRecord) (h : store.any (fun e => e.1 = k) = false) :
    storeSet store k v = store ++ [(k, v)] := by
  rw [storeSet, if_neg (by simp [h])]

/-- C8: `revokeAllUserTokens` removes exactly the records owned by the
given user and leaves every other record unchanged; in the spec's
scenario — two refresh tokens issued for `u1`, one for `u2`, then
`revokeAllUserTokens u1` — exactly the `u2` record survives and both
`u1` refresh tokens subsequently fail `refreshAccessToken` with
`ApiError('Invalid refresh token', 401)`. -/
theorem C8_revokeAllUserTokens_frame (tm : TokenManager) (userId : String) :
    (∀ j r, (j, r) ∈ (tm.revokeAllUserTokens userId).refreshTokenStore ↔
      ((j, r) ∈ tm.refreshTokenStore ∧ r.userId ≠ userId)) ∧
    (∀ (secret : String) (P : Prim), P.Good → ∀ (u1 u2 : UserClaims)
        (j1 j2 j3 : String) (now : Int),
      u1.userId ≠ u2.userId → j1 ≠ j2 → j1 ≠ j3 → j2 ≠ j3 →
      (revokeAllScenario secret P u1 u2 j1 j2 j3 now).refreshTokenStore =
        [(j3, ⟨u2.userId, (now + 7 * 24 * 60 * 60) * 1000⟩)] ∧
      ((revokeAllScenario secret P u1 u2 j1 j2 j3 now).refreshAccessToken P
          ((JWT.mk secret).signRefreshToken P u1 j1 (7 * 24 * 60 * 60) now)
          (now * 1000)).1 =
        .error (.api ⟨"Invalid refresh token", 401⟩) ∧
      ((revokeAllScenario secret P u1 u2 j1 j2 j3 now).refreshAccessToken P
          ((JWT.mk secret).signRefreshToken P u1 j2 (7 * 24 * 60 * 60) now)
          (now * 1000)).1 =
        .error (.api ⟨"Invalid refresh token", 401⟩)) := by
  constructor
  · intro j r
    rw [TokenManager.revokeAllUserTokens]
    simp [List.mem_filter]
  · intro secret P hG u1 u2 j1 j2 j3 now hu h12 h13 h23
    have hscen : revokeAllScenario secret P u1 u2 j1 j2 j3 now =
        ⟨⟨secret⟩, [(j3, ⟨u2.userId, (now + 7 * 24 * 60 * 60) * 1000⟩)]⟩ := by
      rw [revokeAllScenario]
      rw [TokenManager.create]
      rw [generateTokenPair_eq _ _ hG]
      rw [generateTokenPair_eq _ _ hG]
      rw [generateTokenPair_eq _ _ hG]
      rw [storeSet_of_any_false _ _ _ (by simp)]
      rw [storeSet_of_any_false _ _ _ (by simp [h12])]
      rw [storeSet_of_any_false _ _ _ (by simp [h13, h23])]
      rw [TokenManager.revokeAllUserTokens]
      simp [List.filter, Ne.symm hu]
    have hdiv : now * 1000 / 1000 = now := Int.mul_ediv_cancel now (by norm_num)
    have hexp : ¬ (now + 7 * 24 * 60 * 60 < now * 1000 / 1000) := by
      rw [hdiv]
      omega
    refine ⟨by rw [hscen], ?_, ?_⟩
    · have hv := verifyRefreshToken_signRefreshToken ⟨secret⟩ P hG u1 j1
        (7 * 24 * 60 * 60) now now (by omega)
      rw [hscen]
      unfold TokenManager.refreshAccessToken TokenManager.refreshAccessTokenTry
      have hsg : storeGet [(j3, (⟨u2.userId, (now + 7 * 24 * 60 * 60) * 1000⟩ :
          RefreshRecord))] j1 = none := by
        simp [storeGet, List.find?, Ne.symm h13]
      norm_num at hv hsg
      simp [hdiv, hv, hsg]
    · have hv := verifyRefreshToken_signRefreshToken ⟨secret⟩ P hG u1 j2
        (7 * 24 * 60 * 60) now now (by omega)
      rw [hscen]
      unfold TokenManager.refreshAccessToken TokenManager.refreshAccessTokenTry
      have hsg : storeGet [(j3, (⟨u2.userId, (now + 7 * 24 * 60 * 60) * 1000⟩ :
          RefreshRecord))] j2 = none := by
        simp [storeGet, List.find?, Ne.symm h23]
      norm_num at hv hsg
      simp [hdiv, hv, hsg]

/-- C8 witness: the scenario at concrete users and UUIDs. -/
theorem C8_revokeAllUserTokens_frame_witness :
    (revokeAllScenario "k" toyPrim ⟨"a", "e", "r"⟩ ⟨"b", "e", "r"⟩
        "1" "2" "3" 0).refreshTokenStore =
      [("3", ⟨"b", (0 + 7 * 24 * 60 * 60) * 1000⟩)] :=
  ((C8_revokeAllUserTokens_frame ⟨⟨"k"⟩, []⟩ "x").2 "k" toyPrim toyPrim_good
    ⟨"a", "e", "r"⟩ ⟨"b", "e", "r"⟩ "1" "2" "3" 0
    (by decide) (by decide) (by decide) (by decide)).1

